import Mathlib

/-!
Verification of `rescape_graphene` (`schema_helpers.py`): the field-policy
model, the Django-model reflection merge, the CRUD-aware input-type
generator with its memoization, the create-vs-update intent resolver, the
upsert value partitioner, and the query document builder.

Python dicts are embedded as association lists `List (String × α)`;
exceptions are embedded as `Option`/`Except`; the `@memoize` cache is
explicit state threaded through `input_type_class`.
-/

set_option autoImplicit false

namespace RescapeGraphene

/-- The permission tags DENY, REQUIRE, UNIQUE, PRIMARY, ALLOW of
`schema_helpers.py` (string constants in the source). -/
inductive Perm where
  | deny
  | require
  | unique
  | primary
  | allow
deriving DecidableEq, Repr

/-- A per-operation permission entry in a field dict. The source stores
either a single tag (e.g. `create=REQUIRE`) or a list of tags
(e.g. `update=[REQUIRE, UNIQUE]`), so both shapes are embedded. -/
inductive PermSpec where
  | one (p : Perm)
  | many (ps : List Perm)
deriving DecidableEq, Repr

/-- The CRUD operations CREATE, READ, UPDATE, DELETE of `schema_helpers.py`. -/
inductive Crud where
  | create
  | read
  | update
  | delete
deriving DecidableEq, Repr

/-- The Django field classes appearing in the `django_to_graphene_type`
mapping table of `schema_helpers.py`. -/
inductive DjangoFieldClass where
  | autoField
  | integerField
  | bigAutoField
  | charField
  | bigIntegerField
  | binaryField
  | booleanField
  | nullBooleanField
  | dateField
  | dateTimeField
  | timeField
  | decimalField
  | floatField
  | emailField
  | uuidField
  | textField
  | jsonField
deriving DecidableEq, Repr

/-- The graphene scalar types on the right-hand side of the
`django_to_graphene_type` mapping table. -/
inductive GrapheneScalar where
  | int
  | string
  | boolean
  | date
  | datetime
  | time
  | decimal
  | float
  | uuid
  | jsonString
deriving DecidableEq, Repr

/-- The type slot of a field dict value after reflection: either a graphene
scalar class, or the crud-expecting lambda that
`related_input_field_for_crud_type` returns for a related field (embedded
nominally by the related graphene type's name). -/
inductive FieldType where
  | scalar (s : GrapheneScalar)
  | relatedLambda (typeName : String)
deriving DecidableEq, Repr

/-- One entry of the `unique` list that `process_field` builds with
`R.compact`: the PRIMARY tag, the UNIQUE tag, or the list of
"unique together" group identifiers the field belongs to. -/
inductive UniqueEntry where
  | primary
  | uniq
  | groups (gs : List String)
deriving DecidableEq, Repr

/-- A field dict value of `schema_helpers.py`: optional per-crud permission
entries, an optional `type` property, an optional related graphene type
(embedded by name), and the `unique` list filled in by the merge with
Django properties. -/
structure FieldValue where
  create : Option PermSpec
  read : Option PermSpec
  update : Option PermSpec
  delete : Option PermSpec
  type : Option FieldType
  graphene_type : Option String
  unique : List UniqueEntry
deriving DecidableEq, Repr

/-- Look up the permission entry of a field value for a crud operation. -/
def FieldValue.perm (v : FieldValue) : Crud → Option PermSpec
  | Crud.create => v.create
  | Crud.read => v.read
  | Crud.update => v.update
  | Crud.delete => v.delete

/-- A Django model field as consumed by `parse_django_class` and
`process_field`: name, attribute name, field class, primary-key and
uniqueness flags. -/
structure DjangoField where
  name : String
  attname : String
  fieldClass : DjangoFieldClass
  primary_key : Bool
  isUnique : Bool
deriving DecidableEq, Repr

/-- A Django model as consumed by `parse_django_class`: its `_meta.fields`
and `_meta.unique_together` groups. -/
structure DjangoModel where
  fields : List DjangoField
  unique_together : List (List String)
deriving DecidableEq, Repr

/-- A graphene type as consumed by `input_type_class`: its `__name__` and
the Django model of its `_meta`, when `hasattr(graphene_class._meta,
'model')` holds. -/
structure GrapheneType where
  name : String
  model : Option DjangoModel
deriving DecidableEq, Repr

/-- The argument of `input_type_class`: a dict with a `graphene_type` and a
`fields` field dict. -/
structure FieldDictValue where
  graphene_type : GrapheneType
  fields : List (String × FieldValue)
deriving DecidableEq, Repr

/-- Values carried in a mutation values bag (opaque to the code under
study, which only moves them between buckets). -/
abbrev Value := String

/-- Association-list lookup, the embedding of Python dict indexing
`dct[key]` (first matching key wins, as dict keys are unique). -/
def lookupKV {κ : Type} {α : Type} [DecidableEq κ] (k : κ) : List (κ × α) → Option α
  | [] => none
  | (k1, v) :: rest => if k = k1 then some v else lookupKV k rest

/-- The embedding of `R.has`: whether a dict has a key. -/
def hasKey {α : Type} (k : String) (d : List (String × α)) : Bool :=
  d.any (fun kv => kv.1 == k)

/-- The embedding of `R.keys`. -/
def keys {κ : Type} {α : Type} (d : List (κ × α)) : List κ :=
  d.map Prod.fst

/-- The embedding of `R.filter_dict`: keep the key-value pairs satisfying
the predicate. -/
def filter_dict {α : Type} (p : String × α → Bool) (d : List (String × α)) :
    List (String × α) :=
  d.filter p

/-- The embedding of `R.map_dict` for value functions that can raise: map
the values, propagating the first failure (a raised Python exception is
embedded as `none`). -/
def map_dict_opt {α β : Type} (f : α → Option β) :
    List (String × α) → Option (List (String × β))
  | [] => some []
  | (k, v) :: rest =>
    match f v, map_dict_opt f rest with
    | some b, some l => some ((k, b) :: l)
    | _, _ => none

/-- The embedding of `R.compact`: drop the `None` entries of a list. -/
def compact {α : Type} (l : List (Option α)) : List α :=
  l.filterMap id

/-- The embedding of `R.join`: join strings with a separator. -/
def joinSep (sep : String) : List String → String
  | [] => ""
  | [s] => s
  | s :: rest => s ++ sep ++ joinSep sep rest

/-- The embedding of `R.from_pairs_to_array_values`: group a pair list by
key, collecting the values of equal keys into a list, keys kept in first
occurrence order. -/
def addToGroup {β : Type} : List (String × List β) → String → β → List (String × List β)
  | [], k, v => [(k, [v])]
  | (k1, vs) :: rest, k, v =>
    if k = k1 then (k1, vs ++ [v]) :: rest else (k1, vs) :: addToGroup rest k v

/-- Fold a pair list into grouped array values (see `addToGroup`). -/
def from_pairs_to_array_values {β : Type} (ps : List (String × β)) :
    List (String × List β) :=
  ps.foldl (fun acc kv => addToGroup acc kv.1 kv.2) []

/-- The mapping table of `django_to_graphene_type` from Django field
classes to graphene scalar classes. -/
def djangoScalarTable : DjangoFieldClass → GrapheneScalar
  | DjangoFieldClass.autoField => GrapheneScalar.int
  | DjangoFieldClass.integerField => GrapheneScalar.int
  | DjangoFieldClass.bigAutoField => GrapheneScalar.int
  | DjangoFieldClass.charField => GrapheneScalar.string
  | DjangoFieldClass.bigIntegerField => GrapheneScalar.int
  | DjangoFieldClass.binaryField => GrapheneScalar.int
  | DjangoFieldClass.booleanField => GrapheneScalar.boolean
  | DjangoFieldClass.nullBooleanField => GrapheneScalar.boolean
  | DjangoFieldClass.dateField => GrapheneScalar.date
  | DjangoFieldClass.dateTimeField => GrapheneScalar.datetime
  | DjangoFieldClass.timeField => GrapheneScalar.time
  | DjangoFieldClass.decimalField => GrapheneScalar.decimal
  | DjangoFieldClass.floatField => GrapheneScalar.float
  | DjangoFieldClass.emailField => GrapheneScalar.string
  | DjangoFieldClass.uuidField => GrapheneScalar.uuid
  | DjangoFieldClass.textField => GrapheneScalar.string
  | DjangoFieldClass.jsonField => GrapheneScalar.jsonString

/-- The embedding of `django_to_graphene_type`: when the field dict value
carries a `graphene_type` the result is the crud-expecting lambda of
`related_input_field_for_crud_type` (embedded nominally by the related
type's name); otherwise the Django field class is mapped through the
scalar table. -/
def django_to_graphene_type (field : DjangoField) (field_dict_value : Option FieldValue) :
    FieldType :=
  match field_dict_value.bind (fun v => v.graphene_type) with
  | some n => FieldType.relatedLambda n
  | none => FieldType.scalar (djangoScalarTable field.fieldClass)

/-- The `{type, unique}` dict that `process_field` produces for one Django
field. -/
structure ParsedField where
  type : FieldType
  unique : List UniqueEntry
deriving DecidableEq, Repr

/-- The embedding of `process_field`: resolve the graphene type and build
the `unique` list with `R.compact` from the primary-key flag, the unique
flag and the field's "unique together" groups. -/
def process_field (field_to_unique_field_groups : List (String × List String))
    (field : DjangoField) (field_dict_value : Option FieldValue) : ParsedField :=
  { type := django_to_graphene_type field field_dict_value
  , unique := compact
      [ if field.primary_key then some UniqueEntry.primary else none
      , if field.isUnique then some UniqueEntry.uniq else none
      , (lookupKV field.attname field_to_unique_field_groups).map UniqueEntry.groups ] }

/-- The embedding of `parse_django_class`: map each `attname` to the joined
names of every "unique together" group containing it, then process each
model field whose name appears in the field dict, keyed by field name. -/
def parse_django_class (model : DjangoModel) (field_dict : List (String × FieldValue)) :
    List (String × ParsedField) :=
  let field_to_unique_field_groups :=
    from_pairs_to_array_values
      (List.flatten
        (model.unique_together.map
          (fun uniq_field_group =>
            uniq_field_group.map
              (fun attrname => (attrname, joinSep "," uniq_field_group)))))
  (model.fields.filter (fun field => hasKey field.name field_dict)).map
    (fun field =>
      (field.name, process_field field_to_unique_field_groups field
        (lookupKV field.name field_dict)))

/-- The embedding of `R.pick`: restrict a dict to the given keys. -/
def pick {α : Type} (ks : List String) (d : List (String × α)) : List (String × α) :=
  d.filter (fun kv => ks.contains kv.1)

/-- Merging one field's policy entry with its parsed Django properties:
`R.merge_deep` merges the two per-field dicts, the right (parsed) side
winning on the `type` and `unique` keys and the policy's permission keys
surviving untouched. -/
def merge_field_entry (v : FieldValue) (p : ParsedField) : FieldValue :=
  { v with type := some p.type, unique := p.unique }

/-- A field value made of parsed Django properties alone, for the
`R.merge_deep` branch where a key exists only on the right side. -/
def field_value_of_parsed (p : ParsedField) : FieldValue :=
  { create := none, read := none, update := none, delete := none
  , type := some p.type, graphene_type := none, unique := p.unique }

/-- The embedding of `R.merge_deep` on a field dict (left) and a parsed
dict (right): left keys keep their order, shared keys merge entries with
the right side winning per key, and right-only keys are appended. -/
def merge_deep_fields (left : List (String × FieldValue))
    (right : List (String × ParsedField)) : List (String × FieldValue) :=
  left.map
    (fun kv =>
      (kv.1, match lookupKV kv.1 right with
        | some p => merge_field_entry kv.2 p
        | none => kv.2))
  ++ (right.filter (fun kv => (lookupKV kv.1 left).isNone)).map
      (fun kv => (kv.1, field_value_of_parsed kv.2))

/-- The embedding of `merge_with_django_properties`:
`R.merge_deep(field_dict, R.pick(R.keys(field_dict), parse_django_class(model, field_dict)))`.
The source receives the graphene type and reads `graphene_type._meta.model`;
the model is passed directly here. -/
def merge_with_django_properties (model : DjangoModel)
    (field_dict : List (String × FieldValue)) : List (String × FieldValue) :=
  merge_deep_fields field_dict (pick (keys field_dict) (parse_django_class model field_dict))

/-- Modelled from the spec: `R.prop_eq_or(False, crud, DENY, value)` (the
`ramda` module is not under `src/`) — the permission entry for `crud`
equals the scalar tag `DENY`, defaulting to false when absent; a list
entry never equals the scalar (§4.3 field inclusion rule). -/
def denyEq (e : Option PermSpec) : Bool :=
  e == some (PermSpec.one Perm.deny)

/-- Modelled from the spec: `R.prop_eq_or_in(READ, DENY, value)` (the
`ramda` module is not under `src/`) — the permission entry for `READ`
equals `DENY` or is a list containing `DENY`, false when absent (§4.3
field inclusion rule, read path). -/
def denyEqOrIn (e : Option PermSpec) : Bool :=
  match e with
  | some (PermSpec.one p) => p == Perm.deny
  | some (PermSpec.many ps) => ps.contains Perm.deny
  | none => false

/-- Modelled from the spec: `R.prop_eq_or_in_or(False, crud, REQUIRE, value)`
(the `ramda` module is not under `src/`) — the permission entry for `crud`
equals `REQUIRE` or is a list containing `REQUIRE`, defaulting to false
when absent (§4.3 required-ness rule). -/
def requireEqOrIn (e : Option PermSpec) : Bool :=
  match e with
  | some (PermSpec.one p) => p == Perm.require
  | some (PermSpec.many ps) => ps.contains Perm.require
  | none => false

/-- A resolved, instantiated graphene type for one field of a generated
input type: the resolved type (a scalar instance, or the nominal
`input_type_class` reference produced by applying the related lambda to the
crud operation) plus the `required` flag. -/
structure InstField where
  rtype : FieldType
  required : Bool
deriving DecidableEq, Repr

/-- The embedding of `instantiate_graphene_type`: read the `type` property
(a missing `type` raises, embedded as `none`), apply it to `crud` when it
is the related lambda, and instantiate with
`required=R.prop_eq_or_in_or(False, crud, REQUIRE, value)`. -/
def instantiate_graphene_type (value : FieldValue) (crud : Crud) : Option InstField :=
  (value.type).map
    (fun t => { rtype := t, required := requireEqOrIn (value.perm crud) })

/-- The embedding of `guess_update_or_create`: UPDATE when the dict has an
`id` key, CREATE otherwise. -/
def guess_update_or_create {α : Type} (fields_dict : List (String × α)) : Crud :=
  if hasKey "id" fields_dict then Crud.update else Crud.create

/-- The embedding of `input_type_fields`: default the crud operation with
`guess_update_or_create`, filter out values whose permission entry for the
operation equals `DENY`, and instantiate each remaining value. -/
def input_type_fields (fields_dict : List (String × FieldValue)) (crud : Option Crud) :
    Option (List (String × InstField)) :=
  let c := crud.getD (guess_update_or_create fields_dict)
  map_dict_opt (fun value => instantiate_graphene_type value c)
    (filter_dict (fun key_value => ! denyEq ((key_value.2).perm c)) fields_dict)

/-- A query argument produced by `allowed_query_arguments`: an instantiated
scalar, or an instance of the related `input_type_class` for READ (embedded
nominally by the related type's name). -/
inductive QueryArg where
  | scalarInst (s : GrapheneScalar)
  | relatedInst (typeName : String)
deriving DecidableEq, Repr

/-- The value mapping of `allowed_query_arguments`: instantiate a scalar
`type` directly; otherwise build the related READ input type from the
value's `graphene_type` (a missing `type` or `graphene_type` raises,
embedded as `none`). -/
def query_argument_of_value (value : FieldValue) : Option QueryArg :=
  match value.type with
  | some (FieldType.scalar s) => some (QueryArg.scalarInst s)
  | some (FieldType.relatedLambda _) => (value.graphene_type).map QueryArg.relatedInst
  | none => none

/-- The embedding of `allowed_query_arguments`: drop fields whose READ
permission equals or contains `DENY`, then map each remaining field to a
query argument. -/
def allowed_query_arguments (fields_dict : List (String × FieldValue)) :
    Option (List (String × QueryArg)) :=
  map_dict_opt query_argument_of_value
    (filter_dict (fun key_value => ! denyEqOrIn ((key_value.2).perm Crud.read)) fields_dict)

/-- Modelled from the spec: the failure of a lookup of an unknown field,
`UnknownFieldError` of §7 (the `ramda` module providing the raising
`R.item_path` is not under `src/`). -/
inductive FieldErr where
  | unknownField (name : String)
deriving DecidableEq, Repr

/-- Modelled from the spec: `R.item_path([key, 'unique'], fields_dict)` —
read the `unique` list of the field spec at `key`, failing with
`UnknownFieldError` when the key has no entry (§4.5, §7). -/
def uniqueOfField (fields_dict : List (String × FieldValue)) (k : String) :
    Except FieldErr (List UniqueEntry) :=
  match lookupKV k fields_dict with
  | some v => Except.ok v.unique
  | none => Except.error (FieldErr.unknownField k)

/-- The embedding of `R.filter_dict` with a predicate that can raise:
keep the pairs whose predicate is true, propagating the first failure. -/
def filter_dict_exc {α : Type} (p : String × α → Except FieldErr Bool) :
    List (String × α) → Except FieldErr (List (String × α))
  | [] => Except.ok []
  | kv :: rest =>
    match p kv, filter_dict_exc p rest with
    | Except.ok true, Except.ok l => Except.ok (kv :: l)
    | Except.ok false, Except.ok l => Except.ok l
    | Except.error e, _ => Except.error e
    | Except.ok _, Except.error e => Except.error e

/-- The result of `input_type_parameters_for_update_or_create`. The source
returns `dict(defaults=..., **match_keys)`, splicing the uniqueness-matched
keys at top level next to `defaults` (the shape Django's
`update_or_create(defaults=..., **kwargs)` takes); the spliced keys are
collected here in `matchKeys`. -/
structure UpsertParameters where
  matchKeys : List (String × Value)
  defaults : List (String × Value)
deriving DecidableEq, Repr

/-- The embedding of `input_type_parameters_for_update_or_create`:
`defaults` keeps the values whose field spec has an empty `unique` list,
and the rest — the values whose field spec has a nonempty `unique` list —
are the uniqueness match keys; a value key with no field spec fails with
`UnknownFieldError` (see `uniqueOfField`). -/
def input_type_parameters_for_update_or_create
    (fields_dict : List (String × FieldValue)) (values : List (String × Value)) :
    Except FieldErr UpsertParameters := do
  let defaults ← filter_dict_exc
    (fun key_value => (uniqueOfField fields_dict key_value.1).map (fun u => u.isEmpty))
    values
  let matchKeys ← filter_dict_exc
    (fun key_value => (uniqueOfField fields_dict key_value.1).map (fun u => ! u.isEmpty))
    values
  return { matchKeys := matchKeys, defaults := defaults }

/-- The `inflection.camelize(crud, True)` of the four crud constant strings,
as used in the generated type name `'%sRelated%sInputType'`. -/
def camelCrud : Crud → String
  | Crud.create => "Create"
  | Crud.read => "Read"
  | Crud.update => "Update"
  | Crud.delete => "Delete"

/-- A generated `InputObjectType` subclass. `id` is the construction order
of the handle, giving reference identity: two handles are the same Python
class object exactly when they are the same construction. -/
structure Handle where
  id : Nat
  name : String
  fields : List (String × InstField)
deriving DecidableEq, Repr

/-- Modelled from the spec: the process-wide registry behind `@memoize`
(the `memoize` module is not under `src/`): the entries keyed by
`(graphene_type, crud)` — the key the source's
`map_args=lambda args: [args[0]['graphene_type'], args[1]]` extracts — plus
a counter supplying fresh handle identities (§4.3 memoization invariant). -/
structure CacheState where
  next : Nat
  entries : List ((GrapheneType × Crud) × Handle)
deriving DecidableEq, Repr

/-- The empty registry at process start. -/
def CacheState.empty : CacheState :=
  { next := 0, entries := [] }

/-- The field dict that `input_type_class` generates fields from: the
merge with Django properties when the graphene type has a model, the raw
`fields` otherwise. -/
def input_type_field_dict (field_dict_value : FieldDictValue) : List (String × FieldValue) :=
  match field_dict_value.graphene_type.model with
  | some m => merge_with_django_properties m field_dict_value.fields
  | none => field_dict_value.fields

/-- The embedding of `input_type_class` under `@memoize`: look the key
`(graphene_type, crud)` up in the registry and return the registered
handle unchanged on a hit; on a miss build the
`'%sRelated%sInputType'`-named subclass from `input_type_fields` of the
(possibly Django-merged) field dict, register it and return it. A failure
inside the build (embedded `none`) caches nothing. -/
def input_type_class (field_dict_value : FieldDictValue) (crud : Crud)
    (st : CacheState) : Option (Handle × CacheState) :=
  match lookupKV (field_dict_value.graphene_type, crud) st.entries with
  | some h => some (h, st)
  | none =>
    match input_type_fields (input_type_field_dict field_dict_value) (some crud) with
    | none => none
    | some fs =>
      let h : Handle :=
        { id := st.next
        , name := field_dict_value.graphene_type.name ++ "Related" ++ camelCrud crud ++ "InputType"
        , fields := fs }
      some (h, { next := st.next + 1
               , entries := ((field_dict_value.graphene_type, crud), h) :: st.entries })

/-- Capitalize the first character of a string. -/
def capitalizeStr (s : String) : String :=
  match s.toList with
  | [] => ""
  | c :: cs => String.mk (c.toUpper :: cs)

/-- Split a character list at underscores. -/
def splitUnderscoreAux : List Char → List Char → List (List Char)
  | [], acc => [acc.reverse]
  | c :: rest, acc =>
    if c = '_' then acc.reverse :: splitUnderscoreAux rest []
    else splitUnderscoreAux rest (c :: acc)

/-- The `inflection.camelize(s, False)` wire-name conversion of §6:
lower camel case from underscore-separated parts. -/
def camelizeLower (s : String) : String :=
  match (splitUnderscoreAux s.toList []).map String.mk with
  | [] => ""
  | p :: ps => p ++ String.join (ps.map capitalizeStr)

/-- Modelled from the spec: `dump_graphql_keys` (the `graphene_helpers`
module is not under `src/`) renders the selected field names in the wire
camel-case convention, one per line (§4.6 selects the field set, §6 applies
the camel-case conversion); the recursion into relation fields is not
reached by scalar field dicts. -/
def dump_graphql_keys (fields : List (String × FieldValue)) : String :=
  joinSep "\n" ((keys fields).map camelizeLower)

/-- The embedding of the query text built by `graphql_query`'s inner
`form_query` (the builder is pure text construction; the trailing
`client.execute` call is the transport boundary and is not part of the
text): variable definitions formatted as `$key: Type!`, the parenthesized
definition and argument lists present exactly when `variable_definitions`
is nonempty, and the selection from `field_overrides or fields`. -/
def form_query_text (query_name : String) (fields : List (String × FieldValue))
    (variable_definitions : List (String × String))
    (field_overrides : List (String × FieldValue)) : String :=
  let formatted_definitions :=
    joinSep ", "
      (variable_definitions.map (fun kv => "$" ++ kv.1 ++ ": " ++ kv.2 ++ "!"))
  "query someMadeUpString"
    ++ (if formatted_definitions.isEmpty then "" else "(" ++ formatted_definitions ++ ")")
    ++ " \x7b \n                "
    ++ query_name
    ++ (if variable_definitions.isEmpty then ""
        else "("
          ++ joinSep ", "
              ((keys variable_definitions).map (fun key => key ++ ": $" ++ key))
          ++ ")")
    ++ " \x7b\n                    "
    ++ dump_graphql_keys (if field_overrides.isEmpty then fields else field_overrides)
    ++ "\n                \x7d\n            \x7d"

/-- A related-entity field dict exposing only a required `id`, the shape
the source's docstrings use for relation policies. -/
def exRelFields1 : List (String × FieldValue) :=
  [ ("id",
     { create := some (PermSpec.one Perm.require), read := none
     , update := some (PermSpec.one Perm.deny), delete := none
     , type := some (FieldType.scalar GrapheneScalar.int), graphene_type := none
     , unique := [] }) ]

/-- A second field dict for the same graphene type declaring a different
field set. -/
def exRelFields2 : List (String × FieldValue) :=
  exRelFields1 ++
  [ ("name",
     { create := some (PermSpec.one Perm.allow), read := none
     , update := none, delete := none
     , type := some (FieldType.scalar GrapheneScalar.string), graphene_type := none
     , unique := [] }) ]

/-- A model-less graphene type named DataPoint. -/
def exGT : GrapheneType :=
  { name := "DataPoint", model := none }

/-- An `input_type_class` argument over `exGT` with the `exRelFields1`
field set. -/
def exFieldDictValue1 : FieldDictValue :=
  { graphene_type := exGT, fields := exRelFields1 }

/-- An `input_type_class` argument over the same graphene type as
`exFieldDictValue1` but with the larger `exRelFields2` field set. -/
def exFieldDictValue2 : FieldDictValue :=
  { graphene_type := exGT, fields := exRelFields2 }

/-- The `id` entry of the user-like example dict: denied on create. -/
def exUserId : FieldValue :=
  { create := some (PermSpec.one Perm.deny), read := some (PermSpec.one Perm.allow)
  , update := some (PermSpec.one Perm.require), delete := none
  , type := some (FieldType.scalar GrapheneScalar.int), graphene_type := none
  , unique := [UniqueEntry.primary] }

/-- The `username` entry of the user-like example dict: a list permission
`update=[REQUIRE, UNIQUE]`. -/
def exUserName : FieldValue :=
  { create := some (PermSpec.one Perm.require), read := none
  , update := some (PermSpec.many [Perm.require, Perm.unique]), delete := none
  , type := some (FieldType.scalar GrapheneScalar.string), graphene_type := none
  , unique := [UniqueEntry.uniq] }

/-- The `password` entry of the user-like example dict: denied on read. -/
def exUserPassword : FieldValue :=
  { create := some (PermSpec.one Perm.require), read := some (PermSpec.one Perm.deny)
  , update := none, delete := none
  , type := some (FieldType.scalar GrapheneScalar.string), graphene_type := none
  , unique := [] }

/-- A user-like field dict exercising deny, require and list permissions. -/
def exUserFields : List (String × FieldValue) :=
  [("id", exUserId), ("username", exUserName), ("password", exUserPassword)]

/-- The `id` spec of the partitioner example: primary. -/
def exSpecId : FieldValue :=
  { create := none, read := some (PermSpec.one Perm.allow), update := none
  , delete := none, type := some (FieldType.scalar GrapheneScalar.int)
  , graphene_type := none, unique := [UniqueEntry.primary] }

/-- The `name` spec of the partitioner example: tagged unique. -/
def exSpecName : FieldValue :=
  { create := some (PermSpec.one Perm.require), read := none
  , update := some (PermSpec.one Perm.allow), delete := none
  , type := some (FieldType.scalar GrapheneScalar.string), graphene_type := none
  , unique := [UniqueEntry.uniq] }

/-- The `note` spec of the partitioner example: no uniqueness tags. -/
def exSpecNote : FieldValue :=
  { create := some (PermSpec.one Perm.allow), read := none, update := none
  , delete := none, type := some (FieldType.scalar GrapheneScalar.string)
  , graphene_type := none, unique := [] }

/-- A resolved field spec dict for the partitioner: `id` primary, `name`
unique, `note` with no uniqueness tags. -/
def exSpecFields : List (String × FieldValue) :=
  [("id", exSpecId), ("name", exSpecName), ("note", exSpecNote)]

/-- The values bag of the spec's partition example. -/
def exValues : List (String × Value) :=
  [("name", "a"), ("note", "b")]

/-- A values bag containing a key absent from `exSpecFields`. -/
def exBadValues : List (String × Value) :=
  [("name", "a"), ("bogus", "b")]

/-- A Django auto primary-key field named `id`. -/
def exIdField : DjangoField :=
  { name := "id", attname := "id", fieldClass := DjangoFieldClass.autoField
  , primary_key := true, isUnique := false }

/-- A Django model owning only the `id` field, with no unique-together
groups. -/
def exModel : DjangoModel :=
  { fields := [exIdField], unique_together := [] }

/-- The policy entry of the model-backed `id` field (no explicit type; the
merge supplies it from the model). -/
def exIdPolicy : FieldValue :=
  { create := some (PermSpec.one Perm.deny), read := some (PermSpec.one Perm.allow)
  , update := some (PermSpec.one Perm.require), delete := none
  , type := none, graphene_type := none, unique := [] }

/-- A policy entry naming a field the model does not have, with no explicit
type of its own (a pure virtual field in the sense of §4.1). -/
def exFooValue : FieldValue :=
  { create := some (PermSpec.one Perm.allow), read := none, update := none
  , delete := none, type := none, graphene_type := none, unique := [] }

/-- A policy naming the model-backed `id` plus the model-absent `foo`. -/
def exPolicyWithVirtual : List (String × FieldValue) :=
  [("id", exIdPolicy), ("foo", exFooValue)]

/-- The field dict of the spec's read-query example: the scalar fields `id`
and `name`. -/
def exWidgetFields : List (String × FieldValue) :=
  [ ("id",
     { create := none, read := some (PermSpec.one Perm.allow), update := none
     , delete := none, type := some (FieldType.scalar GrapheneScalar.int)
     , graphene_type := none, unique := [UniqueEntry.primary] })
  , ("name",
     { create := some (PermSpec.one Perm.allow), read := none, update := none
     , delete := none, type := some (FieldType.scalar GrapheneScalar.string)
     , graphene_type := none, unique := [] }) ]

/-- The handle the first generation call for `(exGT, CREATE)` constructs. -/
def exHandle1 : Handle :=
  { id := 0
  , name := "DataPointRelatedCreateInputType"
  , fields := [("id", { rtype := FieldType.scalar GrapheneScalar.int, required := true })] }

/-- The registry state after that first generation call. -/
def exState1 : CacheState :=
  { next := 1, entries := [((exGT, Crud.create), exHandle1)] }

/-- The CREATE input-type fields generated over `exUserFields`. -/
def exCreateFieldsOut : List (String × InstField) :=
  [ ("username", { rtype := FieldType.scalar GrapheneScalar.string, required := true })
  , ("password", { rtype := FieldType.scalar GrapheneScalar.string, required := true }) ]

/-- The UPDATE input-type fields generated over `exUserFields`. -/
def exUpdateFieldsOut : List (String × InstField) :=
  [ ("id", { rtype := FieldType.scalar GrapheneScalar.int, required := true })
  , ("username", { rtype := FieldType.scalar GrapheneScalar.string, required := true })
  , ("password", { rtype := FieldType.scalar GrapheneScalar.string, required := false }) ]

/-- The query arguments generated over `exUserFields`. -/
def exReadArgsOut : List (String × QueryArg) :=
  [ ("id", QueryArg.scalarInst GrapheneScalar.int)
  , ("username", QueryArg.scalarInst GrapheneScalar.string) ]

/-- A list is empty exactly when it is `[]`. -/
theorem list_isEmpty_iff {α : Type} {l : List α} : l.isEmpty = true ↔ l = [] := by
  cases l <;> simp

/-- A successful `map_dict_opt` maps every input entry to an output
entry. -/
theorem map_dict_opt_mem_of_mem {α β : Type} {f : α → Option β}
    {d : List (String × α)} {l : List (String × β)} {k : String} {a : α}
    (hmap : map_dict_opt f d = some l) (hmem : (k, a) ∈ d) :
    ∃ b, f a = some b ∧ (k, b) ∈ l := by
  induction d generalizing l with
  | nil => simp at hmem
  | cons kv rest ih =>
    obtain ⟨k1, v1⟩ := kv
    cases hfv : f v1 <;> cases hrest : map_dict_opt f rest <;>
      simp only [map_dict_opt, hfv, hrest, Option.some.injEq] at hmap
    all_goals try exact Option.noConfusion hmap
    rename_i b1 l1
    subst hmap
    rcases List.mem_cons.mp hmem with hhd | htl
    · obtain ⟨hk, ha⟩ := Prod.mk.injEq .. ▸ hhd
      subst hk; subst ha
      exact ⟨b1, hfv, List.mem_cons_self _ _⟩
    · obtain ⟨b, hfb, hbl⟩ := ih hrest htl
      exact ⟨b, hfb, List.mem_cons_of_mem _ hbl⟩

/-- Every entry of a successful `map_dict_opt` output comes from an input
entry with the same key. -/
theorem map_dict_opt_mem_iff_exists {α β : Type} {f : α → Option β}
    {d : List (String × α)} {l : List (String × β)} {k : String} {b : β}
    (hmap : map_dict_opt f d = some l) (hmem : (k, b) ∈ l) :
    ∃ a, (k, a) ∈ d ∧ f a = some b := by
  induction d generalizing l with
  | nil =>
    simp only [map_dict_opt, Option.some.injEq] at hmap
    subst hmap; simp at hmem
  | cons kv rest ih =>
    obtain ⟨k1, v1⟩ := kv
    cases hfv : f v1 <;> cases hrest : map_dict_opt f rest <;>
      simp only [map_dict_opt, hfv, hrest, Option.some.injEq] at hmap
    all_goals try exact Option.noConfusion hmap
    rename_i b1 l1
    subst hmap
    rcases List.mem_cons.mp hmem with hhd | htl
    · obtain ⟨hk, hb⟩ := Prod.mk.injEq .. ▸ hhd
      subst hk; subst hb
      exact ⟨v1, List.mem_cons_self _ _, hfv⟩
    · obtain ⟨a, had, hfa⟩ := ih hrest htl
      exact ⟨a, List.mem_cons_of_mem _ had, hfa⟩

/-- A key is missing from `lookupKV` exactly when it is not among the
keys. -/
theorem lookupKV_eq_none_iff {κ α : Type} [DecidableEq κ] {k : κ}
    {d : List (κ × α)} : lookupKV k d = none ↔ k ∉ keys d := by
  induction d with
  | nil => simp [lookupKV, keys]
  | cons kv rest ih =>
    obtain ⟨k1, v1⟩ := kv
    by_cases hk : k = k1
    · subst hk; simp [lookupKV, keys]
    · simp [lookupKV, keys, hk, ih]

/-- A present key has some `lookupKV` value. -/
theorem lookupKV_isSome_of_mem {κ α : Type} [DecidableEq κ] {k : κ} {a : α}
    {d : List (κ × α)} (hmem : (k, a) ∈ d) :
    ∃ v, lookupKV k d = some v := by
  induction d with
  | nil => simp at hmem
  | cons kv rest ih =>
    obtain ⟨k1, v1⟩ := kv
    by_cases hk : k = k1
    · subst hk; exact ⟨v1, by simp [lookupKV]⟩
    · rcases List.mem_cons.mp hmem with hhd | htl
      · exact absurd (congrArg Prod.fst hhd) hk
      · obtain ⟨v, hv⟩ := ih htl
        exact ⟨v, by simp [lookupKV, hk, hv]⟩

/-- With duplicate-free keys, an entry's key determines its value. -/
theorem mem_unique_of_keys_nodup {α : Type} {d : List (String × α)}
    (hnodup : (keys d).Nodup) {k : String} {a b : α}
    (ha : (k, a) ∈ d) (hb : (k, b) ∈ d) : a = b := by
  induction d with
  | nil => simp at ha
  | cons kv rest ih =>
    obtain ⟨k1, v1⟩ := kv
    simp only [keys, List.map_cons, List.nodup_cons] at hnodup
    rcases List.mem_cons.mp ha with hahd | hatl <;>
      rcases List.mem_cons.mp hb with hbhd | hbtl
    · rw [Prod.mk.injEq] at hahd hbhd
      exact hahd.2.trans hbhd.2.symm
    · rw [Prod.mk.injEq] at hahd
      exact absurd (hahd.1 ▸ List.mem_map_of_mem Prod.fst hbtl) hnodup.1
    · rw [Prod.mk.injEq] at hbhd
      exact absurd (hbhd.1 ▸ List.mem_map_of_mem Prod.fst hatl) hnodup.1
    · exact ih hnodup.2 hatl hbtl

/-- Membership in a successful raising filter: exactly the input entries
whose predicate returned true. -/
theorem filter_dict_exc_mem_iff {α : Type} {p : String × α → Except FieldErr Bool}
    {d l : List (String × α)} (hf : filter_dict_exc p d = Except.ok l)
    (kv : String × α) :
    kv ∈ l ↔ kv ∈ d ∧ p kv = Except.ok true := by
  induction d generalizing l with
  | nil =>
    simp only [filter_dict_exc, Except.ok.injEq] at hf
    subst hf; simp
  | cons kv1 rest ih =>
    cases hp : p kv1 with
    | error e => simp [filter_dict_exc, hp] at hf
    | ok b =>
      cases hrest : filter_dict_exc p rest with
      | error e => cases b <;> simp [filter_dict_exc, hp, hrest] at hf
      | ok l1 =>
        cases b with
        | true =>
          simp only [filter_dict_exc, hp, hrest, Except.ok.injEq] at hf
          subst hf
          constructor
          · intro hmem
            rcases List.mem_cons.mp hmem with hhd | htl
            · exact ⟨hhd ▸ List.mem_cons_self _ _, hhd ▸ hp⟩
            · obtain ⟨hd, hpt⟩ := (ih hrest).mp htl
              exact ⟨List.mem_cons_of_mem _ hd, hpt⟩
          · rintro ⟨hmem, hpt⟩
            rcases List.mem_cons.mp hmem with hhd | htl
            · exact hhd ▸ List.mem_cons_self _ _
            · exact List.mem_cons_of_mem _ ((ih hrest).mpr ⟨htl, hpt⟩)
        | false =>
          simp only [filter_dict_exc, hp, hrest, Except.ok.injEq] at hf
          subst hf
          constructor
          · intro hmem
            obtain ⟨hd, hpt⟩ := (ih hrest).mp hmem
            exact ⟨List.mem_cons_of_mem _ hd, hpt⟩
          · rintro ⟨hmem, hpt⟩
            rcases List.mem_cons.mp hmem with hhd | htl
            · rw [hhd] at hpt
              rw [hpt] at hp
              cases hp
            · exact (ih hrest).mpr ⟨htl, hpt⟩

/-- A raising filter whose predicate succeeds on every entry succeeds. -/
theorem filter_dict_exc_ok_of_forall {α : Type}
    {p : String × α → Except FieldErr Bool} {d : List (String × α)}
    (h : ∀ kv ∈ d, ∃ b, p kv = Except.ok b) :
    ∃ l, filter_dict_exc p d = Except.ok l := by
  induction d with
  | nil => exact ⟨[], rfl⟩
  | cons kv rest ih =>
    obtain ⟨b, hb⟩ := h kv (List.mem_cons_self _ _)
    obtain ⟨l, hl⟩ := ih (fun kv' h' => h kv' (List.mem_cons_of_mem _ h'))
    cases b with
    | true => exact ⟨kv :: l, by simp [filter_dict_exc, hb, hl]⟩
    | false => exact ⟨l, by simp [filter_dict_exc, hb, hl]⟩

/-- A raising filter whose predicate fails on some entry fails. -/
theorem filter_dict_exc_error_of_exists {α : Type}
    {p : String × α → Except FieldErr Bool} {d : List (String × α)}
    {kv : String × α} {e : FieldErr} (hmem : kv ∈ d) (he : p kv = Except.error e) :
    ∃ e1, filter_dict_exc p d = Except.error e1 := by
  induction d with
  | nil => simp at hmem
  | cons kv1 rest ih =>
    rcases List.mem_cons.mp hmem with hhd | htl
    · subst hhd
      exact ⟨e, by simp [filter_dict_exc, he]⟩
    · cases hp : p kv1 with
      | error e2 => exact ⟨e2, by simp [filter_dict_exc, hp]⟩
      | ok b =>
        obtain ⟨e1, he1⟩ := ih htl
        cases b <;> exact ⟨e1, by simp [filter_dict_exc, hp, he1]⟩

/-- C4: `guess_update_or_create` returns UPDATE exactly when the values
bag contains the identifier key `id` and CREATE otherwise; on
`{id: 5, name: "x"}` it returns UPDATE, on `{name: "x"}` it returns
CREATE, and its result depends on no key other than the identifier. -/
theorem guess_update_or_create_spec :
    (∀ values : List (String × Value),
      guess_update_or_create values = Crud.update ↔ hasKey "id" values = true)
    ∧ guess_update_or_create [("id", "5"), ("name", "x")] = Crud.update
    ∧ guess_update_or_create [("name", "x")] = Crud.create
    ∧ (∀ v1 v2 : List (String × Value), hasKey "id" v1 = hasKey "id" v2 →
        guess_update_or_create v1 = guess_update_or_create v2) := by
  refine ⟨?_, by decide, by decide, ?_⟩
  · intro values
    by_cases h : hasKey "id" values <;> simp [guess_update_or_create, h]
  · intro v1 v2 h
    unfold guess_update_or_create
    rw [h]

/-- Witness for C4: the intent resolver applied at two concrete bags that
agree on the identifier key. -/
theorem guess_update_or_create_spec_witness :
    guess_update_or_create [("id", "5"), ("name", "x")]
      = guess_update_or_create [("id", "7")] :=
  guess_update_or_create_spec.2.2.2 [("id", "5"), ("name", "x")] [("id", "7")] (by decide)

/-- C8: the merge with Django properties keeps exactly the policy's keys —
every field named in the policy appears in the result (in the same
positions, hence exactly once when the policy dict is duplicate-free) and
model fields absent from the policy never appear. -/
theorem merge_totality (model : DjangoModel) (field_dict : List (String × FieldValue)) :
    keys (merge_with_django_properties model field_dict) = keys field_dict
    ∧ ∀ k, k ∈ keys (merge_with_django_properties model field_dict) ↔ k ∈ keys field_dict := by
  have hnil : (pick (keys field_dict) (parse_django_class model field_dict)).filter
      (fun kv => (lookupKV kv.1 field_dict).isNone) = [] := by
    rw [List.filter_eq_nil_iff]
    intro kv hkv
    have hpickmem := List.mem_filter.mp hkv
    have hkeymem : kv.1 ∈ keys field_dict := by
      have hcont := hpickmem.2
      simpa using hcont
    intro hisnone
    exact (lookupKV_eq_none_iff.mp (Option.isNone_iff_eq_none.mp hisnone)) hkeymem
  have h1 : keys (merge_with_django_properties model field_dict) = keys field_dict := by
    unfold merge_with_django_properties merge_deep_fields
    rw [hnil]
    simp [keys, List.map_map, Function.comp]
  exact ⟨h1, fun k => by rw [h1]⟩

/-- Counterexample for C7: the policy `exPolicyWithVirtual` names `foo`,
which `exModel` does not have and which carries no explicit type of its
own; `parse_django_class` omits it and `merge_with_django_properties`
passes it through unchanged instead of failing — the merge result is the
successfully computed dict below, with `("foo", exFooValue)` intact. -/
theorem merge_virtual_passthrough_cex :
    merge_with_django_properties exModel exPolicyWithVirtual
      = [ ("id",
           { create := some (PermSpec.one Perm.deny)
           , read := some (PermSpec.one Perm.allow)
           , update := some (PermSpec.one Perm.require), delete := none
           , type := some (FieldType.scalar GrapheneScalar.int), graphene_type := none
           , unique := [UniqueEntry.primary] })
        , ("foo", exFooValue) ]
    ∧ lookupKV "foo" (parse_django_class exModel exPolicyWithVirtual) = none := by
  exact ⟨by decide, by decide⟩

/-- C7 (amended): a policy field absent from the model and without its own
explicit type is not rejected: `parse_django_class` drops it from the
reflected side and `merge_with_django_properties` passes the policy entry
through unchanged; no error is raised at merge time (the missing type only
fails later, when `instantiate_graphene_type` reads the `type` property). -/
theorem merge_virtual_passthrough (model : DjangoModel)
    (field_dict : List (String × FieldValue)) (name : String) (v : FieldValue)
    (hmem : (name, v) ∈ field_dict)
    (habsent : ∀ f ∈ model.fields, f.name ≠ name) :
    (name, v) ∈ merge_with_django_properties model field_dict
    ∧ lookupKV name (parse_django_class model field_dict) = none
    ∧ (v.type = none → ∀ crud, instantiate_graphene_type v crud = none) := by
  have hparse : lookupKV name (parse_django_class model field_dict) = none := by
    rw [lookupKV_eq_none_iff]
    intro hk
    unfold parse_django_class at hk
    simp only [keys, List.map_map, List.mem_map, Function.comp] at hk
    obtain ⟨f, hf, hfname⟩ := hk
    exact habsent f (List.mem_of_mem_filter hf) hfname
  have hpick : lookupKV name
      (pick (keys field_dict) (parse_django_class model field_dict)) = none := by
    rw [lookupKV_eq_none_iff]
    intro hk
    apply lookupKV_eq_none_iff.mp hparse
    simp only [keys, pick, List.mem_map] at hk ⊢
    obtain ⟨kv, hkv, hfst⟩ := hk
    exact ⟨kv, List.mem_of_mem_filter hkv, hfst⟩
  refine ⟨?_, hparse, ?_⟩
  · unfold merge_with_django_properties merge_deep_fields
    apply List.mem_append_left
    have := List.mem_map_of_mem
      (fun kv : String × FieldValue =>
        (kv.1, match lookupKV kv.1 (pick (keys field_dict) (parse_django_class model field_dict)) with
          | some p => merge_field_entry kv.2 p
          | none => kv.2)) hmem
    simpa [hpick] using this
  · intro hty crud
    simp [instantiate_graphene_type, hty]

/-- Witness for C7 (amended): the pass-through at the concrete model and
policy of the counterexample. -/
theorem merge_virtual_passthrough_witness :
    ("foo", exFooValue) ∈ merge_with_django_properties exModel exPolicyWithVirtual
    ∧ instantiate_graphene_type exFooValue Crud.create = none := by
  have h := merge_virtual_passthrough exModel exPolicyWithVirtual "foo" exFooValue
    (by decide) (by decide)
  exact ⟨h.1, h.2.2 (by decide) Crud.create⟩

/-- C9: building the read query named `widget` over the field spec with
exactly the fields `id` and `name` and an empty variable-definitions
mapping produces a document whose root selection is `widget` with no
argument list (no parenthesis at all) and no variable declarations (no
`$` at all), selecting exactly `id` and `name`. -/
theorem graphql_query_widget_example :
    form_query_text "widget" exWidgetFields [] []
      = "query someMadeUpString \x7b \n                widget \x7b\n                    id\nname\n                \x7d\n            \x7d"
    ∧ dump_graphql_keys exWidgetFields = "id\nname"
    ∧ ('$' ∈ (form_query_text "widget" exWidgetFields [] []).toList → False)
    ∧ ('(' ∈ (form_query_text "widget" exWidgetFields [] []).toList → False) := by
  refine ⟨by decide, by decide, by decide, by decide⟩

/-- C5: on a values bag whose keys all have resolved field specs, the
partitioner succeeds and puts each pair whose spec has a nonempty
uniqueness-tag list into the match keys and every other pair into the
defaults; the two buckets are disjoint and their union is exactly the
input bag. -/
theorem partition_exhaustive (fields_dict : List (String × FieldValue))
    (values : List (String × Value))
    (hknown : ∀ kv ∈ values, ∃ v, lookupKV kv.1 fields_dict = some v) :
    ∃ p, input_type_parameters_for_update_or_create fields_dict values = Except.ok p
      ∧ (∀ kv ∈ values,
          kv ∈ p.matchKeys ↔ ∃ v, lookupKV kv.1 fields_dict = some v ∧ v.unique ≠ [])
      ∧ (∀ kv ∈ values,
          kv ∈ p.defaults ↔ ∃ v, lookupKV kv.1 fields_dict = some v ∧ v.unique = [])
      ∧ (∀ kv, ¬ (kv ∈ p.matchKeys ∧ kv ∈ p.defaults))
      ∧ (∀ kv, kv ∈ values ↔ kv ∈ p.matchKeys ∨ kv ∈ p.defaults) := by
  have hdefP : ∀ kv ∈ values, ∃ b,
      ((uniqueOfField fields_dict kv.1).map (fun u => u.isEmpty)) = Except.ok b := by
    intro kv hkv
    obtain ⟨v, hv⟩ := hknown kv hkv
    exact ⟨v.unique.isEmpty, by simp [uniqueOfField, hv, Except.map]⟩
  have hmatchP : ∀ kv ∈ values, ∃ b,
      ((uniqueOfField fields_dict kv.1).map (fun u => ! u.isEmpty)) = Except.ok b := by
    intro kv hkv
    obtain ⟨v, hv⟩ := hknown kv hkv
    exact ⟨! v.unique.isEmpty, by simp [uniqueOfField, hv, Except.map]⟩
  obtain ⟨d, hd⟩ := filter_dict_exc_ok_of_forall hdefP
  obtain ⟨m, hm⟩ := filter_dict_exc_ok_of_forall hmatchP
  refine ⟨{ matchKeys := m, defaults := d }, ?_, ?_, ?_, ?_, ?_⟩
  · simp only [input_type_parameters_for_update_or_create, hd, hm, bind, Except.bind,
      pure, Except.pure]
  · intro kv hkv
    rw [filter_dict_exc_mem_iff hm]
    obtain ⟨v, hv⟩ := hknown kv hkv
    constructor
    · rintro ⟨-, hpt⟩
      refine ⟨v, hv, ?_⟩
      simp only [uniqueOfField, hv, Except.map, Except.ok.injEq] at hpt
      intro hnil
      rw [hnil] at hpt
      cases hpt
    · rintro ⟨v1, hv1, hne⟩
      rw [hv] at hv1
      cases hv1
      refine ⟨hkv, ?_⟩
      simp only [uniqueOfField, hv, Except.map, Except.ok.injEq]
      cases hu : v.unique with
      | nil => exact absurd hu hne
      | cons a l => rfl
  · intro kv hkv
    rw [filter_dict_exc_mem_iff hd]
    obtain ⟨v, hv⟩ := hknown kv hkv
    constructor
    · rintro ⟨-, hpt⟩
      refine ⟨v, hv, ?_⟩
      simp only [uniqueOfField, hv, Except.map, Except.ok.injEq] at hpt
      exact list_isEmpty_iff.mp hpt
    · rintro ⟨v1, hv1, hnil⟩
      rw [hv] at hv1
      cases hv1
      refine ⟨hkv, ?_⟩
      simp only [uniqueOfField, hv, Except.map, Except.ok.injEq]
      exact list_isEmpty_iff.mpr hnil
  · rintro kv ⟨hinm, hind⟩
    have h1 := (filter_dict_exc_mem_iff hm kv).mp hinm
    have h2 := (filter_dict_exc_mem_iff hd kv).mp hind
    obtain ⟨v, hv⟩ := hknown kv h1.1
    have e1 := h1.2
    have e2 := h2.2
    simp only [uniqueOfField, hv, Except.map, Except.ok.injEq] at e1 e2
    rw [e2] at e1
    cases e1
  · intro kv
    constructor
    · intro hkv
      obtain ⟨v, hv⟩ := hknown kv hkv
      cases hu : v.unique.isEmpty with
      | true =>
        right
        exact (filter_dict_exc_mem_iff hd kv).mpr
          ⟨hkv, by simp [uniqueOfField, hv, Except.map, hu]⟩
      | false =>
        left
        exact (filter_dict_exc_mem_iff hm kv).mpr
          ⟨hkv, by simp [uniqueOfField, hv, Except.map, hu]⟩
    · rintro (hkv | hkv)
      · exact ((filter_dict_exc_mem_iff hm kv).mp hkv).1
      · exact ((filter_dict_exc_mem_iff hd kv).mp hkv).1

/-- Witness for C5: the spec's example — `name` tagged unique, `note`
untagged — partitions `{name: "a", note: "b"}` into match keys
`{name: "a"}` and defaults `{note: "b"}`. -/
theorem partition_exhaustive_witness :
    (∃ p, input_type_parameters_for_update_or_create exSpecFields exValues = Except.ok p
      ∧ ("name", "a") ∈ p.matchKeys ∧ ("note", "b") ∈ p.defaults)
    ∧ input_type_parameters_for_update_or_create exSpecFields exValues
        = Except.ok { matchKeys := [("name", "a")], defaults := [("note", "b")] } := by
  refine ⟨?_, rfl⟩
  obtain ⟨p, hp, hmk, hdk, -, -⟩ := partition_exhaustive exSpecFields exValues
    (by intro kv hkv
        simp only [exValues, List.mem_cons, List.not_mem_nil, or_false] at hkv
        rcases hkv with h | h
        · exact ⟨exSpecName, by rw [h]; decide⟩
        · exact ⟨exSpecNote, by rw [h]; decide⟩)
  refine ⟨p, hp, ?_, ?_⟩
  · exact (hmk ("name", "a") (by decide)).mpr ⟨exSpecName, by decide, by decide⟩
  · exact (hdk ("note", "b") (by decide)).mpr ⟨exSpecNote, by decide, by decide⟩

/-- C6: a values bag containing a key with no entry in the resolved field
specs makes the partitioner fail with `UnknownFieldError`; no partial
result is produced. -/
theorem partition_unknown_field_error (fields_dict : List (String × FieldValue))
    (values : List (String × Value)) (k : String) (w : Value)
    (hmem : (k, w) ∈ values) (hunknown : lookupKV k fields_dict = none) :
    ∃ bad, input_type_parameters_for_update_or_create fields_dict values
      = Except.error (FieldErr.unknownField bad) := by
  have hbadP : ((uniqueOfField fields_dict (k, w).1).map (fun u : List UniqueEntry => u.isEmpty))
      = Except.error (FieldErr.unknownField k) := by
    simp [uniqueOfField, hunknown, Except.map]
  obtain ⟨e1, he1⟩ := @filter_dict_exc_error_of_exists Value
    (fun key_value => (uniqueOfField fields_dict key_value.1).map
      (fun u : List UniqueEntry => u.isEmpty))
    values (k, w) (FieldErr.unknownField k) hmem hbadP
  cases e1 with
  | unknownField bad =>
    exact ⟨bad, by simp only [input_type_parameters_for_update_or_create, he1, bind,
      Except.bind]⟩

/-- Witness for C6: the bag `{name: "a", bogus: "b"}` against the specs of
the partition example, whose dict has no `bogus` entry. -/
theorem partition_unknown_field_error_witness :
    ∃ bad, input_type_parameters_for_update_or_create exSpecFields exBadValues
      = Except.error (FieldErr.unknownField bad) :=
  partition_unknown_field_error exSpecFields exBadValues "bogus" "b" (by decide) (by decide)

/-- C2: a field whose policy marks an operation DENY is excluded from the
type generated for that operation — by `input_type_fields`, and by
`allowed_query_arguments` on the read path — and every other field of the
policy is included (on the read path, for fields whose READ entry is a
single tag, the shape the spec's FieldPolicy assigns an operation). -/
theorem deny_enforcement (fields_dict : List (String × FieldValue)) (op : Crud)
    (name : String) (v : FieldValue)
    (hnodup : (keys fields_dict).Nodup) (hmem : (name, v) ∈ fields_dict) :
    (v.perm op = some (PermSpec.one Perm.deny) →
      (∀ l, input_type_fields fields_dict (some op) = some l → ∀ i, (name, i) ∉ l)
      ∧ (op = Crud.read → ∀ la, allowed_query_arguments fields_dict = some la →
          ∀ a, (name, a) ∉ la))
    ∧ (v.perm op ≠ some (PermSpec.one Perm.deny) →
        ∀ l, input_type_fields fields_dict (some op) = some l → ∃ i, (name, i) ∈ l)
    ∧ ((∀ ps, v.perm Crud.read ≠ some (PermSpec.many ps)) →
        v.perm Crud.read ≠ some (PermSpec.one Perm.deny) →
        ∀ la, allowed_query_arguments fields_dict = some la → ∃ a, (name, a) ∈ la) := by
  refine ⟨?_, ?_, ?_⟩
  · intro hdeny
    constructor
    · intro l hl i hmeml
      have hl' : map_dict_opt (fun value => instantiate_graphene_type value op)
          (filter_dict (fun key_value => ! denyEq ((key_value.2).perm op)) fields_dict)
          = some l := by
        simpa [input_type_fields] using hl
      obtain ⟨a, hafilt, -⟩ := map_dict_opt_mem_iff_exists hl' hmeml
      simp only [filter_dict, List.mem_filter] at hafilt
      have haeq : a = v := mem_unique_of_keys_nodup hnodup hafilt.1 hmem
      have hpred := hafilt.2
      rw [haeq, hdeny] at hpred
      simp [denyEq] at hpred
    · intro hop la hla a hmemla
      subst hop
      have hla' : map_dict_opt query_argument_of_value
          (filter_dict (fun key_value => ! denyEqOrIn ((key_value.2).perm Crud.read))
            fields_dict) = some la := by
        simpa [allowed_query_arguments] using hla
      obtain ⟨a1, hafilt, -⟩ := map_dict_opt_mem_iff_exists hla' hmemla
      simp only [filter_dict, List.mem_filter] at hafilt
      have haeq : a1 = v := mem_unique_of_keys_nodup hnodup hafilt.1 hmem
      have hpred := hafilt.2
      rw [haeq, hdeny] at hpred
      simp [denyEqOrIn] at hpred
  · intro hnd l hl
    have hl' : map_dict_opt (fun value => instantiate_graphene_type value op)
        (filter_dict (fun key_value => ! denyEq ((key_value.2).perm op)) fields_dict)
        = some l := by
      simpa [input_type_fields] using hl
    have hfilt : (name, v) ∈
        filter_dict (fun key_value => ! denyEq ((key_value.2).perm op)) fields_dict := by
      simp only [filter_dict, List.mem_filter]
      exact ⟨hmem, by simp [denyEq, beq_eq_false_iff_ne, hnd]⟩
    obtain ⟨b, -, hbl⟩ := map_dict_opt_mem_of_mem hl' hfilt
    exact ⟨b, hbl⟩
  · intro hscalar hnd la hla
    have hla' : map_dict_opt query_argument_of_value
        (filter_dict (fun key_value => ! denyEqOrIn ((key_value.2).perm Crud.read))
          fields_dict) = some la := by
      simpa [allowed_query_arguments] using hla
    have hpred : denyEqOrIn (v.perm Crud.read) = false := by
      cases hperm : v.perm Crud.read with
      | none => simp [denyEqOrIn]
      | some sp =>
        cases sp with
        | one p =>
          by_cases hp : p = Perm.deny
          · exact absurd (hp ▸ hperm) hnd
          · simp [denyEqOrIn, hp]
        | many ps => exact absurd hperm (hscalar ps)
    have hfilt : (name, v) ∈
        filter_dict (fun key_value => ! denyEqOrIn ((key_value.2).perm Crud.read))
          fields_dict := by
      simp only [filter_dict, List.mem_filter]
      exact ⟨hmem, by simp [hpred]⟩
    obtain ⟨b, -, hbl⟩ := map_dict_opt_mem_of_mem hla' hfilt
    exact ⟨b, hbl⟩

/-- Witness for C2: in the user-like dict, `id` (create=DENY) is absent
from the CREATE input type and `password` (read=DENY) is absent from the
query arguments, while `username` is present in both. -/
theorem deny_enforcement_witness :
    (∀ i, ("id", i) ∉ exCreateFieldsOut)
    ∧ (∀ a, ("password", a) ∉ exReadArgsOut)
    ∧ (∃ i, ("username", i) ∈ exCreateFieldsOut) := by
  refine ⟨?_, ?_, ?_⟩
  · exact ((deny_enforcement exUserFields Crud.create "id" exUserId (by decide)
      (by decide)).1 (by decide)).1 exCreateFieldsOut (by decide)
  · exact fun a => ((deny_enforcement exUserFields Crud.read "password" exUserPassword
      (by decide) (by decide)).1 (by decide)).2 rfl exReadArgsOut (by decide) a
  · exact (deny_enforcement exUserFields Crud.create "username" exUserName (by decide)
      (by decide)).2.1 (by decide) exCreateFieldsOut (by decide)

/-- C3: an included field of the generated type is marked required exactly
when its permission entry for the operation is, or is a list containing,
REQUIRE; a field with no entry for the operation is included as optional. -/
theorem require_enforcement (fields_dict : List (String × FieldValue)) (crud : Crud)
    (name : String) (v : FieldValue) (l : List (String × InstField))
    (hmem : (name, v) ∈ fields_dict)
    (hl : input_type_fields fields_dict (some crud) = some l)
    (hincl : v.perm crud ≠ some (PermSpec.one Perm.deny)) :
    ∃ i, (name, i) ∈ l
      ∧ (i.required = true ↔
          (v.perm crud = some (PermSpec.one Perm.require)
            ∨ ∃ ps, v.perm crud = some (PermSpec.many ps) ∧ Perm.require ∈ ps))
      ∧ (v.perm crud = none → i.required = false) := by
  have hl' : map_dict_opt (fun value => instantiate_graphene_type value crud)
      (filter_dict (fun key_value => ! denyEq ((key_value.2).perm crud)) fields_dict)
      = some l := by
    simpa [input_type_fields] using hl
  have hfilt : (name, v) ∈
      filter_dict (fun key_value => ! denyEq ((key_value.2).perm crud)) fields_dict := by
    simp only [filter_dict, List.mem_filter]
    exact ⟨hmem, by simp [denyEq, beq_eq_false_iff_ne, hincl]⟩
  obtain ⟨b, hfb, hbl⟩ := map_dict_opt_mem_of_mem hl' hfilt
  obtain ⟨t, -, hb⟩ := Option.map_eq_some'.mp (by simpa [instantiate_graphene_type] using hfb)
  refine ⟨b, hbl, ?_, ?_⟩
  · rw [← hb]
    cases hperm : v.perm crud with
    | none => simp [requireEqOrIn]
    | some sp =>
      cases sp with
      | one p =>
        simp only [requireEqOrIn]
        constructor
        · intro hp
          have hpr : p = Perm.require := by simpa using hp
          exact Or.inl (by rw [hpr])
        · rintro (h | ⟨ps, hps, -⟩)
          · simp only [Option.some.injEq, PermSpec.one.injEq] at h
            simp [h]
          · simp at hps
      | many ps =>
        simp only [requireEqOrIn]
        constructor
        · intro hc
          exact Or.inr ⟨ps, rfl, by simpa using hc⟩
        · rintro (h | ⟨ps1, hps1, hmem1⟩)
          · simp at h
          · simp only [Option.some.injEq, PermSpec.many.injEq] at hps1
            subst hps1
            simpa using hmem1
  · intro hnone
    rw [← hb]
    simp [requireEqOrIn, hnone]

/-- Witness for C3: in the UPDATE type over the user-like dict, `id`
(update=REQUIRE) is required, `username` (update=[REQUIRE, UNIQUE]) is
required through the list form, and `password` (no update entry) is
included as optional. -/
theorem require_enforcement_witness :
    ∃ i, ("username", i) ∈ exUpdateFieldsOut ∧ i.required = true := by
  obtain ⟨i, hmemi, hiff, -⟩ := require_enforcement exUserFields Crud.update "username"
    exUserName exUpdateFieldsOut (by decide) (by decide) (by decide)
  exact ⟨i, hmemi, hiff.mpr (Or.inr ⟨[Perm.require, Perm.unique], by decide, by decide⟩)⟩

/-- C1: the type generator is idempotent per `(graphene_type, crud)` key —
after a call returns a handle and a registry state, calling again with the
same argument and operation returns the very same handle and leaves the
registry unchanged; a handle is constructed only on the first call for a
key. -/
theorem input_type_class_idempotent (field_dict_value : FieldDictValue) (crud : Crud)
    (st : CacheState) (h1 : Handle) (st1 : CacheState)
    (hcall : input_type_class field_dict_value crud st = some (h1, st1)) :
    input_type_class field_dict_value crud st1 = some (h1, st1) := by
  cases hlook : lookupKV (field_dict_value.graphene_type, crud) st.entries with
  | some h =>
    simp only [input_type_class, hlook, Option.some.injEq, Prod.mk.injEq] at hcall
    obtain ⟨hh, hst⟩ := hcall
    subst hh
    subst hst
    simp only [input_type_class, hlook]
  | none =>
    simp only [input_type_class, hlook] at hcall
    cases hfs : input_type_fields (input_type_field_dict field_dict_value) (some crud) with
    | none => simp [hfs] at hcall
    | some fs =>
      simp only [hfs, Option.some.injEq, Prod.mk.injEq] at hcall
      obtain ⟨hh, hst⟩ := hcall
      subst hh
      subst hst
      simp [input_type_class, lookupKV]

/-- Witness for C1: a second generation call for `(DataPoint, CREATE)`
against the registry produced by the first call returns the first call's
handle and the unchanged registry. -/
theorem input_type_class_idempotent_witness :
    input_type_class exFieldDictValue1 Crud.create exState1 = some (exHandle1, exState1) :=
  input_type_class_idempotent exFieldDictValue1 Crud.create CacheState.empty exHandle1
    exState1 (by decide)

/-- C10: the memoization key of the type generator is only the graphene
type and the crud operation — a call with a second field-dict value naming
the same graphene type returns the handle registered by the first call,
which (when the first call missed the registry) was built from the first
call's fields, regardless of the second value's field set. -/
theorem input_type_class_key_ignores_fields (v1 v2 : FieldDictValue) (crud : Crud)
    (st : CacheState) (h1 : Handle) (st1 : CacheState)
    (hgt : v1.graphene_type = v2.graphene_type)
    (hcall : input_type_class v1 crud st = some (h1, st1)) :
    input_type_class v2 crud st1 = some (h1, st1)
    ∧ (lookupKV (v1.graphene_type, crud) st.entries = none →
        input_type_fields (input_type_field_dict v1) (some crud) = some h1.fields) := by
  cases hlook : lookupKV (v1.graphene_type, crud) st.entries with
  | some h =>
    simp only [input_type_class, hlook, Option.some.injEq, Prod.mk.injEq] at hcall
    obtain ⟨hh, hst⟩ := hcall
    subst hh
    subst hst
    constructor
    · simp only [input_type_class, ← hgt, hlook]
    · intro hcontra
      cases hcontra
  | none =>
    simp only [input_type_class, hlook] at hcall
    cases hfs : input_type_fields (input_type_field_dict v1) (some crud) with
    | none => simp [hfs] at hcall
    | some fs =>
      simp only [hfs, Option.some.injEq, Prod.mk.injEq] at hcall
      obtain ⟨hh, hst⟩ := hcall
      subst hh
      subst hst
      constructor
      · simp [input_type_class, lookupKV, ← hgt]
      · intro hnone
        rfl

/-- Witness for C10: generating for `exFieldDictValue2` — same graphene
type as `exFieldDictValue1` but a larger field set — after the first call
for `exFieldDictValue1` returns the first call's handle unchanged, and
that handle's fields are the ones generated from `exFieldDictValue1`. -/
theorem input_type_class_key_ignores_fields_witness :
    input_type_class exFieldDictValue2 Crud.create exState1 = some (exHandle1, exState1)
    ∧ input_type_fields (input_type_field_dict exFieldDictValue1) (some Crud.create)
        = some exHandle1.fields := by
  have h := input_type_class_key_ignores_fields exFieldDictValue1 exFieldDictValue2
    Crud.create CacheState.empty exHandle1 exState1 (by decide) (by decide)
  exact ⟨h.1, h.2 (by decide)⟩

end RescapeGraphene
